import Mathlib

/-!
Verification of the token-bucket rate limiter in `src/rate_limiter.py`
(class `RateLimiter`).

The embedding is a shallow one over ℚ:
* machine floats become exact rationals;
* `time.monotonic()` becomes an explicit `now : ℚ` argument threaded
  through each call, so a sequence of calls is a list of
  `(now, cost)` pairs;
* the one fallible spot of the code — the unguarded division
  `(cost - self.tokens) / self.tokens_per_second` on the denied branch,
  which raises `ZeroDivisionError` in Python when
  `tokens_per_second == 0` — becomes an explicit error constructor of
  the result type.

The Python methods translated below:
* `__init__` (lines 12–26) → `RateLimiter.init`;
* `_refill_tokens` (lines 28–41) → `RateLimiter._refill_tokens`;
* `allow_request` (lines 43–62) → `RateLimiter.allow_request`.
-/

/-- The mutable state of a `RateLimiter` object (`src/rate_limiter.py`,
lines 22–25).  The `threading.Lock` of line 26 has no data content and is
omitted; the lock serializes calls, so a run of the limiter is modelled as
a sequence of calls. -/
structure RateLimiter where
  max_tokens : ℚ
  tokens_per_second : ℚ
  tokens : ℚ
  last_refill : ℚ
  deriving DecidableEq

/-- `RateLimiter.__init__` (lines 12–26): no validation is performed;
the bucket starts full (`self.tokens = max_tokens`) and `last_refill`
is the current monotonic time, passed here explicitly as `now`. -/
def RateLimiter.init (max_tokens tokens_per_second now : ℚ) : RateLimiter :=
  { max_tokens := max_tokens
    tokens_per_second := tokens_per_second
    tokens := max_tokens
    last_refill := now }

/-- `RateLimiter._refill_tokens` (lines 28–41), with `time.monotonic()`
passed explicitly as `now`:
`tokens = min(max_tokens, tokens + (now - last_refill) * tokens_per_second)`
and `last_refill = now`. -/
def RateLimiter._refill_tokens (rl : RateLimiter) (now : ℚ) : RateLimiter :=
  let time_elapsed := now - rl.last_refill
  let tokens_to_add := time_elapsed * rl.tokens_per_second
  { rl with
      tokens := min rl.max_tokens (rl.tokens + tokens_to_add)
      last_refill := now }

/-- Outcome of `allow_request`: either the returned pair
`(allowed, tokens-or-wait_time)` of lines 58/62, or the
`ZeroDivisionError` that line 61 raises when `tokens_per_second` is
zero. -/
inductive AllowResult where
  | ok (allowed : Bool) (value : ℚ)
  | zeroDivisionError
  deriving DecidableEq

/-- True exactly on the allowed outcome `(True, remaining)`. -/
def AllowResult.isAllowed : AllowResult → Bool
  | .ok true _ => true
  | _ => false

/-- `RateLimiter.allow_request` (lines 43–62), with `time.monotonic()`
passed explicitly as `now`.  It refills, then either debits `cost`
(line 55: `if self.tokens >= cost`) or computes the wait time
`(cost - tokens) / tokens_per_second`; that division raises
`ZeroDivisionError` in Python when `tokens_per_second == 0`, which the
embedding makes an explicit outcome.  The returned state is the
post-call `self`. -/
def RateLimiter.allow_request (rl : RateLimiter) (now : ℚ) (cost : ℚ) :
    RateLimiter × AllowResult :=
  let r := rl._refill_tokens now
  if cost ≤ r.tokens then
    ({ r with tokens := r.tokens - cost }, AllowResult.ok true (r.tokens - cost))
  else if r.tokens_per_second = 0 then
    (r, AllowResult.zeroDivisionError)
  else
    (r, AllowResult.ok false ((cost - r.tokens) / r.tokens_per_second))

/-- The state after a sequence of `allow_request` calls, each call given
as a `(now, cost)` pair. -/
def runCalls (rl : RateLimiter) : List (ℚ × ℚ) → RateLimiter
  | [] => rl
  | call :: rest => runCalls (rl.allow_request call.1 call.2).1 rest

/-- How many calls of a sequence return `allowed = True`. -/
def countAllowed (rl : RateLimiter) : List (ℚ × ℚ) → ℕ
  | [] => 0
  | call :: rest =>
    let step := rl.allow_request call.1 call.2
    (if step.2.isAllowed then 1 else 0) + countAllowed step.1 rest

/-- A call sequence is valid, starting from a clock reading `t`, when
each call has a positive cost and the clock readings are non-decreasing
(first one at least `t`). -/
def validCalls : ℚ → List (ℚ × ℚ) → Prop
  | _, [] => True
  | t, call :: rest => t ≤ call.1 ∧ 0 < call.2 ∧ validCalls call.1 rest

instance validCalls.instDecidable :
    (t : ℚ) → (calls : List (ℚ × ℚ)) → Decidable (validCalls t calls)
  | _, [] => Decidable.isTrue trivial
  | t, call :: rest =>
    haveI : Decidable (validCalls call.1 rest) :=
      validCalls.instDecidable call.1 rest
    inferInstanceAs (Decidable (t ≤ call.1 ∧ 0 < call.2 ∧ validCalls call.1 rest))

example :
    ((RateLimiter.init 30 10 0).allow_request 0 1).2 = AllowResult.ok true 29 := by
  norm_num [RateLimiter.init, RateLimiter.allow_request, RateLimiter._refill_tokens]

example :
    ((RateLimiter.init 1 1 0).allow_request 0 2).2 = AllowResult.ok false 1 := by
  norm_num [RateLimiter.init, RateLimiter.allow_request, RateLimiter._refill_tokens,
    AllowResult.isAllowed]

example : countAllowed (RateLimiter.init 3 1 0)
    [(0,1),(0,1),(0,1),(0,1)] = 3 := by
  norm_num [RateLimiter.init, RateLimiter.allow_request, RateLimiter._refill_tokens,
    countAllowed, AllowResult.isAllowed]

example : validCalls 0 [(0,1),(2,3)] := by decide

/-! ### Basic lemmas about the refill and the two branches of `allow_request` -/

theorem refill_max_tokens (rl : RateLimiter) (now : ℚ) :
    (rl._refill_tokens now).max_tokens = rl.max_tokens := rfl

theorem refill_tokens_per_second (rl : RateLimiter) (now : ℚ) :
    (rl._refill_tokens now).tokens_per_second = rl.tokens_per_second := rfl

theorem refill_last_refill (rl : RateLimiter) (now : ℚ) :
    (rl._refill_tokens now).last_refill = now := rfl

theorem refill_tokens_eq (rl : RateLimiter) (now : ℚ) :
    (rl._refill_tokens now).tokens =
      min rl.max_tokens (rl.tokens + (now - rl.last_refill) * rl.tokens_per_second) := rfl

/-- The allowed branch (line 55–58): when the post-refill level covers the
cost, `allow_request` debits it and returns `(True, remaining)`. -/
theorem allow_request_of_le (rl : RateLimiter) (now cost : ℚ)
    (h : cost ≤ (rl._refill_tokens now).tokens) :
    rl.allow_request now cost =
      ({ rl._refill_tokens now with tokens := (rl._refill_tokens now).tokens - cost },
        AllowResult.ok true ((rl._refill_tokens now).tokens - cost)) := by
  simp only [RateLimiter.allow_request, if_pos h]

/-- The denied branch (lines 59–62) with a nonzero refill rate: the state is
the refilled one, the result carries the wait time. -/
theorem allow_request_of_lt (rl : RateLimiter) (now cost : ℚ)
    (h : (rl._refill_tokens now).tokens < cost) (h0 : rl.tokens_per_second ≠ 0) :
    rl.allow_request now cost =
      (rl._refill_tokens now,
        AllowResult.ok false
          ((cost - (rl._refill_tokens now).tokens) / rl.tokens_per_second)) := by
  simp only [RateLimiter.allow_request, if_neg (not_le.mpr h),
    refill_tokens_per_second, if_neg h0]

/-- The denied branch with refill rate zero: the division of line 61 raises
`ZeroDivisionError`; the state mutation of the refill has already happened. -/
theorem allow_request_of_lt_zero_rate (rl : RateLimiter) (now cost : ℚ)
    (h : (rl._refill_tokens now).tokens < cost) (h0 : rl.tokens_per_second = 0) :
    rl.allow_request now cost = (rl._refill_tokens now, AllowResult.zeroDivisionError) := by
  have h0r : (rl._refill_tokens now).tokens_per_second = 0 := h0
  simp only [RateLimiter.allow_request, if_neg (not_le.mpr h), if_pos h0r]

/-- On either denied sub-branch the post-call state is exactly the refilled
state. -/
theorem allow_request_state_of_lt (rl : RateLimiter) (now cost : ℚ)
    (h : (rl._refill_tokens now).tokens < cost) :
    (rl.allow_request now cost).1 = rl._refill_tokens now := by
  by_cases h0 : rl.tokens_per_second = 0
  · rw [allow_request_of_lt_zero_rate rl now cost h h0]
  · rw [allow_request_of_lt rl now cost h h0]

/-- Field bookkeeping shared by several proofs: `allow_request` never
mutates `max_tokens` or `tokens_per_second`, always sets `last_refill` to
`now`, and changes `tokens` only as refill-then-debit (allowed) or refill
alone (denied). -/
theorem allow_request_fields (rl : RateLimiter) (now cost : ℚ) :
    (rl.allow_request now cost).1.max_tokens = rl.max_tokens ∧
    (rl.allow_request now cost).1.tokens_per_second = rl.tokens_per_second ∧
    (rl.allow_request now cost).1.last_refill = now ∧
    (if cost ≤ (rl._refill_tokens now).tokens
      then (rl.allow_request now cost).1.tokens = (rl._refill_tokens now).tokens - cost
      else (rl.allow_request now cost).1 = rl._refill_tokens now) := by
  by_cases h : cost ≤ (rl._refill_tokens now).tokens
  · rw [allow_request_of_le rl now cost h]
    refine ⟨rfl, rfl, rfl, ?_⟩
    rw [if_pos h]
  · rw [allow_request_state_of_lt rl now cost (not_le.mp h)]
    exact ⟨rfl, rfl, rfl, by rw [if_neg h]⟩

/-- C7: every `allow_request` call (allowed or denied) performs the refill,
setting `last_refill` to the clock value `now`; the allowed branch
additionally debits `cost` from the post-refill level; on the denied branch
the state is exactly the refilled state and nothing else changes; the
`max_tokens` and `tokens_per_second` fields are never mutated. -/
theorem allow_request_frame (rl : RateLimiter) (now cost : ℚ) :
    (rl.allow_request now cost).1.max_tokens = rl.max_tokens ∧
    (rl.allow_request now cost).1.tokens_per_second = rl.tokens_per_second ∧
    (rl.allow_request now cost).1.last_refill = now ∧
    (if cost ≤ (rl._refill_tokens now).tokens
      then (rl.allow_request now cost).1.tokens = (rl._refill_tokens now).tokens - cost
      else (rl.allow_request now cost).1 = rl._refill_tokens now) :=
  allow_request_fields rl now cost

/-! ### C1: the level invariant -/

/-- With a positive refill rate, a level in `[0, capacity]` and a
non-regressing clock, the refill keeps the level in `[0, capacity]`. -/
theorem refill_invariant (rl : RateLimiter) (now : ℚ)
    (hrate : 0 < rl.tokens_per_second) (h0 : 0 ≤ rl.tokens)
    (h1 : rl.tokens ≤ rl.max_tokens) (hnow : rl.last_refill ≤ now) :
    0 ≤ (rl._refill_tokens now).tokens ∧
    (rl._refill_tokens now).tokens ≤ (rl._refill_tokens now).max_tokens := by
  rw [refill_max_tokens, refill_tokens_eq]
  have hadd : 0 ≤ (now - rl.last_refill) * rl.tokens_per_second :=
    mul_nonneg (by linarith) hrate.le
  exact ⟨le_min (by linarith) (by linarith), min_le_left _ _⟩

/-- One `allow_request` call with positive cost keeps the level in
`[0, capacity]`. -/
theorem allow_request_invariant_step (rl : RateLimiter) (now cost : ℚ)
    (hrate : 0 < rl.tokens_per_second) (h0 : 0 ≤ rl.tokens)
    (h1 : rl.tokens ≤ rl.max_tokens) (hnow : rl.last_refill ≤ now) (hc : 0 < cost) :
    0 ≤ (rl.allow_request now cost).1.tokens ∧
    (rl.allow_request now cost).1.tokens ≤ (rl.allow_request now cost).1.max_tokens := by
  obtain ⟨hr0, hr1⟩ := refill_invariant rl now hrate h0 h1 hnow
  by_cases h : cost ≤ (rl._refill_tokens now).tokens
  · rw [allow_request_of_le rl now cost h]
    refine ⟨?_, ?_⟩
    · show 0 ≤ (rl._refill_tokens now).tokens - cost
      linarith
    · show (rl._refill_tokens now).tokens - cost ≤ (rl._refill_tokens now).max_tokens
      linarith
  · rw [allow_request_state_of_lt rl now cost (not_le.mp h)]
    exact ⟨hr0, hr1⟩

/-- Running any valid call sequence preserves the level invariant, and the
capacity field is never changed. -/
theorem runCalls_invariant (calls : List (ℚ × ℚ)) (rl : RateLimiter)
    (hrate : 0 < rl.tokens_per_second) (h0 : 0 ≤ rl.tokens)
    (h1 : rl.tokens ≤ rl.max_tokens) (hvalid : validCalls rl.last_refill calls) :
    0 ≤ (runCalls rl calls).tokens ∧
    (runCalls rl calls).tokens ≤ (runCalls rl calls).max_tokens ∧
    (runCalls rl calls).max_tokens = rl.max_tokens := by
  induction calls generalizing rl with
  | nil => exact ⟨h0, h1, rfl⟩
  | cons call rest ih =>
    obtain ⟨hnow, hc, hrest⟩ := hvalid
    obtain ⟨s0, s1⟩ := allow_request_invariant_step rl call.1 call.2 hrate h0 h1 hnow hc
    have hframe := allow_request_fields rl call.1 call.2
    have hrun : runCalls rl (call :: rest) =
        runCalls (rl.allow_request call.1 call.2).1 rest := rfl
    rw [hrun]
    have hres := ih (rl.allow_request call.1 call.2).1
      (by rw [hframe.2.1]; exact hrate) s0 s1
      (by rw [hframe.2.2.1]; exact hrest)
    exact ⟨hres.1, hres.2.1, by rw [hres.2.2, hframe.1]⟩

/-- C1: on a bucket constructed with positive capacity and positive refill
rate, for every sequence of `allow_request` calls with positive costs and
non-decreasing clock readings, the token level satisfies
`0 ≤ level ≤ capacity` after the sequence; the sequence being arbitrary,
the bound holds after every call of every such run. -/
theorem bucket_level_invariant (cap rate t0 : ℚ) (calls : List (ℚ × ℚ))
    (hcap : 0 < cap) (hrate : 0 < rate) (hvalid : validCalls t0 calls) :
    0 ≤ (runCalls (RateLimiter.init cap rate t0) calls).tokens ∧
    (runCalls (RateLimiter.init cap rate t0) calls).tokens ≤ cap := by
  have h := runCalls_invariant calls (RateLimiter.init cap rate t0)
    hrate hcap.le le_rfl hvalid
  exact ⟨h.1, le_trans h.2.1 (le_of_eq h.2.2)⟩

/-! ### C4: construction -/

/-- C4 counterexample: `__init__` performs no validation, so with
`capacity = -1` and `refillRate = -2` (both `≤ 0`) construction does not
fail with `InvalidConfig`: it produces a bucket, with `level = -1`. -/
theorem init_no_invalid_config_counterexample :
    RateLimiter.init (-1) (-2) 0 =
      { max_tokens := -1, tokens_per_second := -2, tokens := -1, last_refill := 0 } := rfl

/-- C4 amended: construction never fails.  For every pair
`(capacity, refillRate)` — non-positive values included — `__init__`
produces a bucket with `level = capacity` (full) and `lastRefill = now`. -/
theorem init_fields (max_tokens tokens_per_second now : ℚ) :
    (RateLimiter.init max_tokens tokens_per_second now).max_tokens = max_tokens ∧
    (RateLimiter.init max_tokens tokens_per_second now).tokens_per_second = tokens_per_second ∧
    (RateLimiter.init max_tokens tokens_per_second now).tokens = max_tokens ∧
    (RateLimiter.init max_tokens tokens_per_second now).last_refill = now :=
  ⟨rfl, rfl, rfl, rfl⟩

/-! ### C8: negative elapsed time -/

/-- C8 counterexample: with `last_refill = 100` and a clock reading
`now = 0` (elapsed `= -100`), the refill neither fails nor clamps: it
applies the negative delta and the level drops from `10` to `-490`. -/
theorem refill_clock_regression_counterexample :
    ((RateLimiter.init 10 5 100)._refill_tokens 0).tokens = -490 ∧
    ((RateLimiter.init 10 5 100)._refill_tokens 0).tokens <
      (RateLimiter.init 10 5 100).tokens := by
  norm_num [RateLimiter.init, RateLimiter._refill_tokens]

/-- C8 amended: the code has no `ClockRegression` error and no clamp.  When
the clock reading is earlier than `last_refill` (negative elapsed time) and
the refill rate is positive, the refill applies the raw negative delta
`elapsed * refillRate`, strictly decreasing the token level. -/
theorem refill_negative_elapsed (rl : RateLimiter) (now : ℚ)
    (hrate : 0 < rl.tokens_per_second) (hneg : now < rl.last_refill) :
    (rl._refill_tokens now).tokens =
      min rl.max_tokens (rl.tokens + (now - rl.last_refill) * rl.tokens_per_second) ∧
    (rl._refill_tokens now).tokens < rl.tokens := by
  refine ⟨rfl, ?_⟩
  have hadd : (now - rl.last_refill) * rl.tokens_per_second < 0 :=
    mul_neg_of_neg_of_pos (by linarith) hrate
  calc (rl._refill_tokens now).tokens
      ≤ rl.tokens + (now - rl.last_refill) * rl.tokens_per_second := by
        rw [refill_tokens_eq]; exact min_le_right _ _
    _ < rl.tokens := by linarith

/-! ### Frozen-clock lemmas, for the burst properties -/

/-- A refill at the very clock reading stored in `last_refill` (zero
elapsed time) leaves the state unchanged, provided the level does not
exceed the capacity. -/
theorem refill_frozen (rl : RateLimiter) (h1 : rl.tokens ≤ rl.max_tokens) :
    rl._refill_tokens rl.last_refill = rl := by
  cases rl with
  | mk mx rate tk lr =>
    have h1m : tk ≤ mx := h1
    simp [RateLimiter._refill_tokens, min_eq_right h1m]

/-- A denied call is never counted as allowed, on either denied
sub-branch. -/
theorem allow_request_denied_of_lt (rl : RateLimiter) (now cost : ℚ)
    (h : (rl._refill_tokens now).tokens < cost) :
    ((rl.allow_request now cost).2).isAllowed = false := by
  by_cases h0 : rl.tokens_per_second = 0
  · rw [allow_request_of_lt_zero_rate rl now cost h h0]; rfl
  · rw [allow_request_of_lt rl now cost h h0]; rfl

/-- Running `m` identical calls of cost `c` at a frozen clock `t` (equal to
the bucket's `last_refill`): the number of allowed calls is
`min m ⌊level / c⌋`, each allowed call debits `c`, and no other field
changes. -/
theorem countAllowed_replicate (c t : ℚ) (hc : 0 < c) :
    ∀ (m : ℕ) (rl : RateLimiter), rl.last_refill = t → rl.tokens ≤ rl.max_tokens →
      countAllowed rl (List.replicate m (t, c)) = min m (⌊rl.tokens / c⌋.toNat) ∧
      (runCalls rl (List.replicate m (t, c))).tokens =
        rl.tokens - (min m (⌊rl.tokens / c⌋.toNat) : ℕ) * c ∧
      (runCalls rl (List.replicate m (t, c))).max_tokens = rl.max_tokens ∧
      (runCalls rl (List.replicate m (t, c))).tokens_per_second = rl.tokens_per_second ∧
      (runCalls rl (List.replicate m (t, c))).last_refill = rl.last_refill := by
  intro m
  induction m with
  | zero =>
    intro rl _ _
    simp [countAllowed, runCalls]
  | succ m ih =>
    intro rl hlast h1
    have hfreeze : rl._refill_tokens t = rl := hlast ▸ refill_frozen rl h1
    have hrep : List.replicate (m + 1) (t, c) = (t, c) :: List.replicate m (t, c) :=
      List.replicate_succ (t, c) m
    by_cases hge : c ≤ rl.tokens
    · -- the first call is allowed and debits c
      have hge' : c ≤ (rl._refill_tokens t).tokens := by rw [hfreeze]; exact hge
      have hstep := allow_request_of_le rl t c hge'
      rw [hfreeze] at hstep
      -- floor bookkeeping
      have hx1 : (1 : ℚ) ≤ rl.tokens / c := (one_le_div hc).mpr hge
      have hfl1 : (1 : ℤ) ≤ ⌊rl.tokens / c⌋ := Int.le_floor.mpr (by exact_mod_cast hx1)
      have hsub : (rl.tokens - c) / c = rl.tokens / c - 1 := by
        rw [sub_div, div_self (ne_of_gt hc)]
      have hfl2 : ⌊(rl.tokens - c) / c⌋ = ⌊rl.tokens / c⌋ - 1 := by
        rw [hsub, Int.floor_sub_one]
      have hs2 : ⌊(rl.tokens - c) / c⌋.toNat = ⌊rl.tokens / c⌋.toNat - 1 := by
        rw [hfl2]; omega
      have hs1 : 1 ≤ ⌊rl.tokens / c⌋.toNat := by omega
      set rl2 : RateLimiter := { rl with tokens := rl.tokens - c } with hrl2
      have hih := ih rl2 hlast (by show rl.tokens - c ≤ rl.max_tokens; linarith)
      have htok2 : rl2.tokens = rl.tokens - c := rfl
      have hcount : countAllowed rl (List.replicate (m + 1) (t, c)) =
          1 + countAllowed rl2 (List.replicate m (t, c)) := by
        rw [hrep]
        show (if (rl.allow_request t c).2.isAllowed then 1 else 0) +
            countAllowed (rl.allow_request t c).1 (List.replicate m (t, c)) = _
        rw [hstep]
        rfl
      have hrun : runCalls rl (List.replicate (m + 1) (t, c)) =
          runCalls rl2 (List.replicate m (t, c)) := by
        rw [hrep]
        show runCalls (rl.allow_request t c).1 (List.replicate m (t, c)) = _
        rw [hstep]
      have hmin : min (m + 1) (⌊rl.tokens / c⌋.toNat) =
          min m (⌊(rl.tokens - c) / c⌋.toNat) + 1 := by
        rw [hs2]; omega
      refine ⟨?_, ?_, ?_, ?_, ?_⟩
      · rw [hcount, hih.1, htok2, hmin]; omega
      · rw [hrun, hih.2.1, htok2, hmin]
        push_cast
        ring
      · rw [hrun, hih.2.2.1]
      · rw [hrun, hih.2.2.2.1]
      · rw [hrun, hih.2.2.2.2, hlast]
    · -- the first call is denied and changes nothing
      have hlt : (rl._refill_tokens t).tokens < c := by
        rw [hfreeze]; exact not_le.mp hge
      have hzero : ⌊rl.tokens / c⌋.toNat = 0 := by
        have hx : rl.tokens / c < 1 := (div_lt_one hc).mpr (not_le.mp hge)
        have : ⌊rl.tokens / c⌋ < 1 := Int.floor_lt.mpr (by exact_mod_cast hx)
        omega
      have hstate : (rl.allow_request t c).1 = rl := by
        rw [allow_request_state_of_lt rl t c hlt, hfreeze]
      have hih := ih rl hlast h1
      have hcount : countAllowed rl (List.replicate (m + 1) (t, c)) =
          countAllowed rl (List.replicate m (t, c)) := by
        rw [hrep]
        show (if (rl.allow_request t c).2.isAllowed then 1 else 0) +
            countAllowed (rl.allow_request t c).1 (List.replicate m (t, c)) = _
        rw [allow_request_denied_of_lt rl t c hlt, hstate]
        simp
      have hrun : runCalls rl (List.replicate (m + 1) (t, c)) =
          runCalls rl (List.replicate m (t, c)) := by
        rw [hrep]
        show runCalls (rl.allow_request t c).1 (List.replicate m (t, c)) = _
        rw [hstate]
      refine ⟨?_, ?_, ?_, ?_, ?_⟩
      · rw [hcount, hih.1, hzero]; simp
      · rw [hrun, hih.2.1, hzero]; simp
      · rw [hrun, hih.2.2.1]
      · rw [hrun, hih.2.2.2.1]
      · rw [hrun, hih.2.2.2.2]

/-! ### C3: non-positive cost -/

/-- C3 counterexample: `allow_request` performs no cost validation.  On a
fresh bucket of capacity `10`, a call with `cost = -1` (which is `≤ 0`)
does not fail with `InvalidArgument`: it returns `allowed = True` and
mutates the state, raising the level to `11`. -/
theorem allow_request_invalid_cost_counterexample :
    ((RateLimiter.init 10 5 0).allow_request 0 (-1)).2 = AllowResult.ok true 11 ∧
    ((RateLimiter.init 10 5 0).allow_request 0 (-1)).1.tokens = 11 := by
  norm_num [RateLimiter.init, RateLimiter.allow_request, RateLimiter._refill_tokens]

/-- C3 amended: `allow_request` performs no cost validation and never raises
`InvalidArgument`.  For `cost ≤ 0` on a bucket with non-negative level
within capacity and a non-regressing clock, the call refills (mutating
`last_refill` to `now`), then takes the allowed branch — the post-refill
level is `≥ 0 ≥ cost` — debiting the non-positive cost from the level. -/
theorem allow_request_nonpositive_cost (rl : RateLimiter) (now cost : ℚ)
    (hrate : 0 < rl.tokens_per_second) (h0 : 0 ≤ rl.tokens)
    (h1 : rl.tokens ≤ rl.max_tokens) (hnow : rl.last_refill ≤ now) (hc : cost ≤ 0) :
    (rl.allow_request now cost).2 =
      AllowResult.ok true ((rl._refill_tokens now).tokens - cost) ∧
    (rl.allow_request now cost).1.tokens = (rl._refill_tokens now).tokens - cost ∧
    (rl.allow_request now cost).1.last_refill = now := by
  have hadd : 0 ≤ (now - rl.last_refill) * rl.tokens_per_second :=
    mul_nonneg (by linarith) hrate.le
  have hge : cost ≤ (rl._refill_tokens now).tokens := by
    rw [refill_tokens_eq]
    exact le_trans hc (le_min (by linarith) (by linarith))
  rw [allow_request_of_le rl now cost hge]
  exact ⟨rfl, rfl, rfl⟩

/-! ### C2 and C9: burst admission at a frozen clock -/

/-- C2: starting from a full bucket of capacity `cap` with a frozen clock,
for a fixed cost `0 < c ≤ cap`, exactly `⌊cap / c⌋` consecutive
`allow_request` calls return `allowed = True`, and the next call with the
same cost is denied (returns `allowed = False` with the wait time of
line 61). -/
theorem burst_property (cap rate t c : ℚ)
    (hc : 0 < c) (hccap : c ≤ cap) (hrate : 0 < rate) :
    countAllowed (RateLimiter.init cap rate t)
      (List.replicate (⌊cap / c⌋.toNat) (t, c)) = ⌊cap / c⌋.toNat ∧
    ((runCalls (RateLimiter.init cap rate t)
        (List.replicate (⌊cap / c⌋.toNat) (t, c))).allow_request t c).2 =
      AllowResult.ok false
        ((c - (runCalls (RateLimiter.init cap rate t)
            (List.replicate (⌊cap / c⌋.toNat) (t, c))).tokens) / rate) := by
  obtain ⟨hcount, htokens, hmax, htps, hlr⟩ :=
    countAllowed_replicate c t hc (⌊cap / c⌋.toNat) (RateLimiter.init cap rate t) rfl le_rfl
  have hs : ⌊(RateLimiter.init cap rate t).tokens / c⌋.toNat = ⌊cap / c⌋.toNat := rfl
  rw [hs, min_self] at hcount htokens
  refine ⟨hcount, ?_⟩
  set st := runCalls (RateLimiter.init cap rate t)
    (List.replicate (⌊cap / c⌋.toNat) (t, c)) with hst
  have htokinit : (RateLimiter.init cap rate t).tokens = cap := rfl
  rw [htokinit] at htokens
  -- the floor, cast to ℚ
  have hfl1 : (1 : ℤ) ≤ ⌊cap / c⌋ :=
    Int.le_floor.mpr (by exact_mod_cast (one_le_div hc).mpr hccap)
  have hcast : ((⌊cap / c⌋.toNat : ℕ) : ℚ) = ((⌊cap / c⌋ : ℤ) : ℚ) := by
    exact_mod_cast congrArg Int.cast (Int.toNat_of_nonneg (by omega))
  have hup : cap / c < (⌊cap / c⌋ : ℚ) + 1 := Int.lt_floor_add_one (cap / c)
  have hcapup : cap < ((⌊cap / c⌋ : ℚ) + 1) * c := by
    have := (div_lt_iff₀ hc).mp hup
    linarith
  have hltc : st.tokens < c := by
    rw [htokens, hcast]
    nlinarith [hcapup]
  have hnn : (0 : ℚ) ≤ (⌊cap / c⌋.toNat : ℚ) * c := by
    have : (0 : ℚ) ≤ (⌊cap / c⌋.toNat : ℚ) := by positivity
    nlinarith
  have hstmax : st.max_tokens = cap := hmax
  have hstle : st.tokens ≤ st.max_tokens := by
    rw [htokens, hstmax]; linarith
  have hstlast : st.last_refill = t := hlr
  have hfreeze : st._refill_tokens t = st := hstlast ▸ refill_frozen st hstle
  have hlt : (st._refill_tokens t).tokens < c := by rw [hfreeze]; exact hltc
  have hne : st.tokens_per_second ≠ 0 := by rw [htps]; exact ne_of_gt hrate
  rw [allow_request_of_lt st t c hlt hne, hfreeze]
  show AllowResult.ok false ((c - st.tokens) / st.tokens_per_second) =
    AllowResult.ok false ((c - st.tokens) / rate)
  rw [htps]
  show AllowResult.ok false ((c - st.tokens) / rate) = _
  rfl

/-- C9: the lock taken on line 52 makes each refill-then-debit step of
`allow_request` atomic, so a run of N concurrent cost-1 callers against a
shared bucket is some serialization of their calls.  For every such
serialization — any sequence of `m ≥ C` cost-1 calls at a frozen clock
against a full bucket of capacity `C` — exactly `C` calls are allowed. -/
theorem lock_serialized_admission (C : ℕ) (rate t : ℚ) (m : ℕ)
    (hC : 0 < C) (hrate : 0 < rate) (hm : C ≤ m) :
    countAllowed (RateLimiter.init (C : ℚ) rate t) (List.replicate m (t, 1)) = C := by
  obtain ⟨hcount, -, -, -, -⟩ :=
    countAllowed_replicate 1 t one_pos m (RateLimiter.init (C : ℚ) rate t) rfl le_rfl
  rw [hcount]
  have htok : (RateLimiter.init (C : ℚ) rate t).tokens = (C : ℚ) := rfl
  rw [htok, div_one, Int.floor_natCast, Int.toNat_natCast]
  exact min_eq_right hm

/-! ### C5: retry-after -/

/-- C5 counterexample: for a cost exceeding the capacity the retry-after
promise fails.  Bucket of capacity 1, rate 1, full; `allow_request(2)` at
`t = 0` is denied with `retryAfter = 1`, but advancing the clock by
exactly `1` and retrying the same cost is denied again (the level clamps
at capacity `1 < 2`), not allowed as the claim states. -/
theorem retry_after_counterexample :
    ((RateLimiter.init 1 1 0).allow_request 0 2).2 = AllowResult.ok false 1 ∧
    (((RateLimiter.init 1 1 0).allow_request 0 2).1.allow_request (0 + 1) 2).2 =
      AllowResult.ok false 1 := by
  norm_num [RateLimiter.init, RateLimiter.allow_request, RateLimiter._refill_tokens]

/-- C5 amended: whenever `allow_request(cost)` is denied **and the cost is
at most the capacity**, the call returns
`retryAfter = (cost - level) / refillRate` computed from the post-refill
level, and advancing the clock by exactly `retryAfter` and retrying the
same cost succeeds (leaving level 0).  For `cost > capacity` the retry is
denied again, as the counterexample shows. -/
theorem retry_after_accuracy (rl : RateLimiter) (now cost : ℚ)
    (hrate : 0 < rl.tokens_per_second) (hcap : cost ≤ rl.max_tokens)
    (hdenied : (rl._refill_tokens now).tokens < cost) :
    (rl.allow_request now cost).2 =
      AllowResult.ok false
        ((cost - (rl._refill_tokens now).tokens) / rl.tokens_per_second) ∧
    ((rl.allow_request now cost).1.allow_request
        (now + (cost - (rl._refill_tokens now).tokens) / rl.tokens_per_second) cost).2 =
      AllowResult.ok true 0 := by
  have hne : rl.tokens_per_second ≠ 0 := ne_of_gt hrate
  set rl1 := rl._refill_tokens now with hrl1
  set w := (cost - rl1.tokens) / rl.tokens_per_second with hw
  have hstate : (rl.allow_request now cost).1 = rl1 :=
    allow_request_state_of_lt rl now cost hdenied
  have hwmul : w * rl.tokens_per_second = cost - rl1.tokens :=
    div_mul_cancel₀ _ hne
  have hT2 : (rl1._refill_tokens (now + w)).tokens = cost := by
    rw [refill_tokens_eq]
    have hl1 : rl1.last_refill = now := refill_last_refill rl now
    have htps1 : rl1.tokens_per_second = rl.tokens_per_second :=
      refill_tokens_per_second rl now
    have hmax1 : rl1.max_tokens = rl.max_tokens := refill_max_tokens rl now
    rw [hl1, htps1, hmax1]
    have he : now + w - now = w := by ring
    rw [he, hwmul]
    have hsum : rl1.tokens + (cost - rl1.tokens) = cost := by ring
    rw [hsum]
    exact min_eq_right hcap
  have hge2 : cost ≤ (rl1._refill_tokens (now + w)).tokens := le_of_eq hT2.symm
  constructor
  · rw [allow_request_of_lt rl now cost hdenied hne]
  · rw [hstate, allow_request_of_le rl1 (now + w) cost hge2]
    show AllowResult.ok true ((rl1._refill_tokens (now + w)).tokens - cost) =
      AllowResult.ok true 0
    rw [hT2, sub_self]

/-! ### C6: clamped refill after a long idle period -/

/-- C6: the refill sets the level to
`min(capacity, level + elapsed * refillRate)`; after an idle period of at
least `capacity / refillRate` the level is exactly `capacity` (clamped,
never above), however depleted the bucket was, and the next call of any
cost `≤ capacity` is allowed. -/
theorem refill_clamp_full (rl : RateLimiter) (now cost : ℚ)
    (hrate : 0 < rl.tokens_per_second) (h0 : 0 ≤ rl.tokens)
    (hidle : rl.max_tokens / rl.tokens_per_second ≤ now - rl.last_refill)
    (hc : cost ≤ rl.max_tokens) :
    (rl._refill_tokens now).tokens =
      min rl.max_tokens (rl.tokens + (now - rl.last_refill) * rl.tokens_per_second) ∧
    (rl._refill_tokens now).tokens = rl.max_tokens ∧
    (rl.allow_request now cost).2 = AllowResult.ok true (rl.max_tokens - cost) := by
  have hfull : (rl._refill_tokens now).tokens = rl.max_tokens := by
    rw [refill_tokens_eq]
    have hprod : rl.max_tokens ≤ (now - rl.last_refill) * rl.tokens_per_second := by
      have := (div_le_iff₀ hrate).mp hidle
      linarith
    exact min_eq_left (by linarith)
  have hge : cost ≤ (rl._refill_tokens now).tokens := by rw [hfull]; exact hc
  refine ⟨rfl, hfull, ?_⟩
  rw [allow_request_of_le rl now cost hge]
  show AllowResult.ok true ((rl._refill_tokens now).tokens - cost) =
    AllowResult.ok true (rl.max_tokens - cost)
  rw [hfull]

/-! ### C10: the unguarded division -/

/-- C10: with a positive refill rate, `allow_request` always returns
normally (never the `ZeroDivisionError` outcome); but construction accepts
`tokens_per_second = 0`, and on such a bucket any call that takes the
denied branch performs the unguarded division
`(cost - tokens) / tokens_per_second` of line 61 and raises
`ZeroDivisionError`. -/
theorem allow_request_zero_division (rl : RateLimiter) (now cost : ℚ) :
    (0 < rl.tokens_per_second → 0 < cost →
      (rl.allow_request now cost).2 ≠ AllowResult.zeroDivisionError) ∧
    (RateLimiter.init rl.max_tokens 0 rl.last_refill).tokens_per_second = 0 ∧
    (rl.tokens_per_second = 0 → (rl._refill_tokens now).tokens < cost →
      (rl.allow_request now cost).2 = AllowResult.zeroDivisionError) := by
  refine ⟨?_, rfl, ?_⟩
  · intro hrate _
    by_cases h : cost ≤ (rl._refill_tokens now).tokens
    · rw [allow_request_of_le rl now cost h]
      simp
    · rw [allow_request_of_lt rl now cost (not_le.mp h) (ne_of_gt hrate)]
      simp
  · intro h0 hlt
    rw [allow_request_of_lt_zero_rate rl now cost hlt h0]

/-! ### Concrete witnesses -/

/-- C1 witness: a concrete bucket (capacity 10, rate 5) and a concrete
valid two-call sequence satisfy the invariant theorem's hypotheses and
conclusion. -/
theorem bucket_level_invariant_witness :
    (0:ℚ) < 10 ∧ (0:ℚ) < 5 ∧ validCalls 0 [(0,1),(2,3)] ∧
    (0 ≤ (runCalls (RateLimiter.init 10 5 0) [(0,1),(2,3)]).tokens ∧
      (runCalls (RateLimiter.init 10 5 0) [(0,1),(2,3)]).tokens ≤ 10) :=
  ⟨by decide, by decide, by decide,
    bucket_level_invariant 10 5 0 [(0,1),(2,3)] (by decide) (by decide) (by decide)⟩

/-- C2 witness: capacity 10, rate 5, cost 3 at a frozen clock. -/
theorem burst_property_witness :
    (0:ℚ) < 3 ∧ (3:ℚ) ≤ 10 ∧ (0:ℚ) < 5 ∧
    (countAllowed (RateLimiter.init 10 5 0)
        (List.replicate (⌊(10:ℚ) / 3⌋.toNat) (0, 3)) = ⌊(10:ℚ) / 3⌋.toNat ∧
      ((runCalls (RateLimiter.init 10 5 0)
          (List.replicate (⌊(10:ℚ) / 3⌋.toNat) (0, 3))).allow_request 0 3).2 =
        AllowResult.ok false
          ((3 - (runCalls (RateLimiter.init 10 5 0)
              (List.replicate (⌊(10:ℚ) / 3⌋.toNat) (0, 3))).tokens) / 5)) :=
  ⟨by decide, by decide, by decide,
    burst_property 10 5 0 3 (by decide) (by decide) (by decide)⟩

/-- C3 witness: a fresh bucket of capacity 10 and the call `cost = -1`. -/
theorem allow_request_nonpositive_cost_witness :
    0 < (RateLimiter.init 10 5 0).tokens_per_second ∧
    0 ≤ (RateLimiter.init 10 5 0).tokens ∧
    (RateLimiter.init 10 5 0).tokens ≤ (RateLimiter.init 10 5 0).max_tokens ∧
    (RateLimiter.init 10 5 0).last_refill ≤ 0 ∧
    (-1 : ℚ) ≤ 0 ∧
    (((RateLimiter.init 10 5 0).allow_request 0 (-1)).2 =
        AllowResult.ok true (((RateLimiter.init 10 5 0)._refill_tokens 0).tokens - (-1)) ∧
      ((RateLimiter.init 10 5 0).allow_request 0 (-1)).1.tokens =
        ((RateLimiter.init 10 5 0)._refill_tokens 0).tokens - (-1) ∧
      ((RateLimiter.init 10 5 0).allow_request 0 (-1)).1.last_refill = 0) :=
  ⟨by decide, by decide, by decide, by decide, by decide,
    allow_request_nonpositive_cost (RateLimiter.init 10 5 0) 0 (-1)
      (by decide) (by decide) (by decide) (by decide) (by decide)⟩

/-- C5 witness: an empty bucket of capacity 2, rate 1; `allow_request(2)`
at `t = 0` is denied, and retrying after exactly the returned wait
succeeds. -/
theorem retry_after_accuracy_witness :
    0 < (RateLimiter.mk 2 1 0 0).tokens_per_second ∧
    (2:ℚ) ≤ (RateLimiter.mk 2 1 0 0).max_tokens ∧
    ((RateLimiter.mk 2 1 0 0)._refill_tokens 0).tokens < 2 ∧
    (((RateLimiter.mk 2 1 0 0).allow_request 0 2).2 =
        AllowResult.ok false
          ((2 - ((RateLimiter.mk 2 1 0 0)._refill_tokens 0).tokens) /
            (RateLimiter.mk 2 1 0 0).tokens_per_second) ∧
      (((RateLimiter.mk 2 1 0 0).allow_request 0 2).1.allow_request
          (0 + (2 - ((RateLimiter.mk 2 1 0 0)._refill_tokens 0).tokens) /
            (RateLimiter.mk 2 1 0 0).tokens_per_second) 2).2 =
        AllowResult.ok true 0) :=
  ⟨by decide, by decide, by simp [RateLimiter._refill_tokens, min_lt_iff],
    retry_after_accuracy (RateLimiter.mk 2 1 0 0) 0 2 (by decide) (by decide)
      (by simp [RateLimiter._refill_tokens, min_lt_iff])⟩

/-- C6 witness: capacity 2, rate 1, constructed at `t = 0`, next call at
`t = 2` (idle `2 ≥ capacity/rate`), cost 1. -/
theorem refill_clamp_full_witness :
    0 < (RateLimiter.init 2 1 0).tokens_per_second ∧
    0 ≤ (RateLimiter.init 2 1 0).tokens ∧
    (RateLimiter.init 2 1 0).max_tokens / (RateLimiter.init 2 1 0).tokens_per_second ≤
      2 - (RateLimiter.init 2 1 0).last_refill ∧
    (1:ℚ) ≤ (RateLimiter.init 2 1 0).max_tokens ∧
    (((RateLimiter.init 2 1 0)._refill_tokens 2).tokens =
        min (RateLimiter.init 2 1 0).max_tokens
          ((RateLimiter.init 2 1 0).tokens +
            (2 - (RateLimiter.init 2 1 0).last_refill) *
              (RateLimiter.init 2 1 0).tokens_per_second) ∧
      ((RateLimiter.init 2 1 0)._refill_tokens 2).tokens =
        (RateLimiter.init 2 1 0).max_tokens ∧
      ((RateLimiter.init 2 1 0).allow_request 2 1).2 =
        AllowResult.ok true ((RateLimiter.init 2 1 0).max_tokens - 1)) :=
  ⟨by decide, by decide, by simp [RateLimiter.init], by decide,
    refill_clamp_full (RateLimiter.init 2 1 0) 2 1 (by decide) (by decide)
      (by simp [RateLimiter.init]) (by decide)⟩

/-- C8 witness: a bucket created at clock 100 refilled at clock 0. -/
theorem refill_negative_elapsed_witness :
    0 < (RateLimiter.init 10 5 100).tokens_per_second ∧
    (0:ℚ) < (RateLimiter.init 10 5 100).last_refill ∧
    (((RateLimiter.init 10 5 100)._refill_tokens 0).tokens =
        min (RateLimiter.init 10 5 100).max_tokens
          ((RateLimiter.init 10 5 100).tokens +
            (0 - (RateLimiter.init 10 5 100).last_refill) *
              (RateLimiter.init 10 5 100).tokens_per_second) ∧
      ((RateLimiter.init 10 5 100)._refill_tokens 0).tokens <
        (RateLimiter.init 10 5 100).tokens) :=
  ⟨by decide, by decide,
    refill_negative_elapsed (RateLimiter.init 10 5 100) 0 (by decide) (by decide)⟩

/-- C9 witness: capacity 2, five cost-1 calls at a frozen clock: exactly
two are allowed. -/
theorem lock_serialized_admission_witness :
    0 < 2 ∧ (0:ℚ) < 1 ∧ 2 ≤ 5 ∧
    countAllowed (RateLimiter.init ((2:ℕ) : ℚ) 1 0) (List.replicate 5 (0, 1)) = 2 :=
  ⟨by decide, by decide, by decide,
    lock_serialized_admission 2 1 0 5 (by decide) (by decide) (by decide)⟩

/-- C10 witness: with rate 5 a call returns normally; with rate 0 a denied
call (cost 7 on capacity 5) hits the division and errors. -/
theorem allow_request_zero_division_witness :
    (0 < (RateLimiter.init 10 5 0).tokens_per_second ∧ (0:ℚ) < 1 ∧
      ((RateLimiter.init 10 5 0).allow_request 0 1).2 ≠ AllowResult.zeroDivisionError) ∧
    ((RateLimiter.init 5 0 0).tokens_per_second = 0 ∧
      ((RateLimiter.init 5 0 0)._refill_tokens 0).tokens < 7 ∧
      ((RateLimiter.init 5 0 0).allow_request 0 7).2 = AllowResult.zeroDivisionError) :=
  ⟨⟨by decide, by decide,
      (allow_request_zero_division (RateLimiter.init 10 5 0) 0 1).1
        (by decide) (by decide)⟩,
    ⟨by decide,
      by simp [RateLimiter.init, RateLimiter._refill_tokens, min_lt_iff]; decide,
      (allow_request_zero_division (RateLimiter.init 5 0 0) 0 7).2.2 (by decide)
        (by simp [RateLimiter.init, RateLimiter._refill_tokens, min_lt_iff]; decide)⟩⟩
